import Mathlib

/-!
Verification of the kanta playback core against its specification.

Shallow embedding of the repository sources:
* `src/player.rs`    — the `Player` state machine (playlist, cursor, sink, tick).
* `src/media_controls.rs` — the playback-status report pushed to the OS bridge.
* `src/track.rs`     — `Track::load` (probe, metadata tags, duration).
* `src/main.rs`      — the `Kanta` variant's sink update (for the swap claims).

Conventions of the embedding:
* Rust `String` / `PathBuf` values are `List Char` (`Str`), a faithful model of
  UTF-8 text; `Duration` values are `Nat` milliseconds.
* The `rodio` sink and the filesystem/decoder are external collaborators; they
  are modelled from the spec's AudioOutput capability list: a queue of decoded
  sources, a pause flag, a position and a volume.  `fs::read` plus
  `Decoder::build` are an environment function returning the decoded source for
  a path, `none` meaning failure.
* Rust methods on `&mut self` returning `anyhow::Result<()>` become functions
  `Player → Player × Option PErr`: on an early `?` return the mutations made so
  far persist and the error component is `some`.
* A Rust panic (e.g. `Duration` underflow, `.unwrap()` on an error) is the
  distinguished outcome `fatal`: no state survives it.
-/

set_option maxRecDepth 4000

namespace Kanta

/-- Characters of a Rust `String` / `PathBuf` (always valid UTF-8 here). -/
abbrev Str := List Char

/-! ## The audio sink (AudioOutput collaborator, modelled from the spec §6) -/

/-- Model of the `rodio::Sink`: the queue of enqueued decoded sources, the
pause flag, the reported playback position in milliseconds, and the volume
(the `f32` volume is abstracted to `Nat`; no claim depends on its values). -/
structure Sink where
  queue : List Str
  paused : Bool
  pos : Nat
  volume : Nat
deriving DecidableEq, Repr

/-- Sink `skip_one`: drops the source currently at the head of the queue; the
position restarts for the following source.  The pause flag is untouched. -/
def Sink.skipOne (s : Sink) : Sink :=
  { s with queue := s.queue.tail, pos := 0 }

/-- Sink `append`: enqueues a decoded source at the back of the queue. -/
def Sink.enqueueSrc (s : Sink) (src : Str) : Sink :=
  { s with queue := s.queue ++ [src] }

/-! ## Media-control outputs (`src/media_controls.rs`) -/

/-- The `souvlaki::MediaPlayback` value pushed to the OS media controls. -/
inductive MediaPlayback where
  | playing (progress : Nat)
  | paused (progress : Nat)
  | stopped
deriving DecidableEq, Repr

/-- Body of `KantaMediaControls::update_playback` (media_controls.rs 65–83):
the status computed from `(is_idle, is_paused, position)` exactly as the
source writes it — note the second branch tests `is_idle && is_paused`. -/
def mediaPlaybackFor (isIdle isPaused : Bool) (progress : Nat) : MediaPlayback :=
  if !isIdle && !isPaused then .playing progress
  else if isIdle && isPaused then .paused progress
  else .stopped

/-! ## Tracks (`src/track.rs` value part) -/

/-- The `Track` value: path plus optional metadata plus duration (ms). -/
structure Track where
  path : Str
  title : Option Str
  album : Option Str
  artist : Option Str
  lyrics : Option Str
  duration : Nat
deriving DecidableEq, Repr

/-- Outbound messages recorded on the media-control bridge: the metadata
pushes (`update_metadata`) and the status pushes (`set_playback`). -/
inductive MCOutput where
  | metadata (t : Track)
  | playback (m : MediaPlayback)
deriving DecidableEq, Repr

/-! ## The player (`src/player.rs`) -/

/-- State of `Player`: the sink, the playlist, the cursor `playlist_index`,
and the log of messages pushed to the media-control bridge. -/
structure Player where
  sink : Sink
  playlist : List Track
  playlist_index : Option Nat
  mcLog : List MCOutput
deriving DecidableEq, Repr

/-- The error carried by a failing `anyhow::Result` of a player operation
(file read or decoder failure inside `update_sink_to_current_track`). -/
inductive PErr where
  | ioError
deriving DecidableEq, Repr

/-- Result of a `&mut self`-mutating fallible player method: the state after
the call together with `some` error when the method returned `Err`. -/
abbrev Res := Player × Option PErr

/-- Environment: `fs::read` composed with `Decoder::builder().build()` —
yields the decoded source for a path, or `none` when either step fails. -/
structure Env where
  readDecode : Str → Option Str

/-- `Player::current_track` (player.rs 153–156): the playlist entry at the
cursor, via the bounds-safe `get`. -/
def currentTrack (p : Player) : Option Track :=
  p.playlist_index.bind fun i => p.playlist.get? i

/-- `Player::update_media_control_playback` (player.rs 213–216): pushes the
status computed by `mediaPlaybackFor` from `sink.empty()`, `is_paused()` and
`position()`. -/
def updateMCPlayback (p : Player) : Player :=
  { p with mcLog :=
      p.mcLog ++ [.playback (mediaPlaybackFor p.sink.queue.isEmpty p.sink.paused p.sink.pos)] }

/-- `Player::update_sink_to_current_track` (player.rs 188–211): skip the
in-flight source if any, then — when a current track exists — read and decode
its file, enqueue the source, and push metadata and status.  File/decoder
failure propagates as `Err` after the skip already happened. -/
def updateSinkToCurrentTrack (env : Env) (p : Player) : Res :=
  let p1 := if p.sink.queue.isEmpty then p else { p with sink := p.sink.skipOne }
  match currentTrack p1 with
  | none => (p1, none)
  | some track =>
    match env.readDecode track.path with
    | none => (p1, some .ioError)
    | some source =>
      let p2 := { p1 with sink := p1.sink.enqueueSrc source }
      let p3 := { p2 with mcLog := p2.mcLog ++ [.metadata track] }
      (updateMCPlayback p3, none)

/-- `Player::jump_to_track_at` (player.rs 37–41): sets the cursor to the given
index unconditionally, then updates the sink. -/
def jumpToTrackAt (env : Env) (index : Nat) (p : Player) : Res :=
  updateSinkToCurrentTrack env { p with playlist_index := some index }

/-- `Player::jump_to_previous_track` (player.rs 43–55): no-op on an empty
playlist or a `None` cursor; otherwise decrement the cursor unless it is 0,
and update the sink in either case. -/
def jumpToPreviousTrack (env : Env) (p : Player) : Res :=
  if p.playlist.isEmpty then (p, none)
  else
    match p.playlist_index with
    | none => (p, none)
    | some index =>
      let newIndex := if 0 < index then index - 1 else index
      updateSinkToCurrentTrack env { p with playlist_index := some newIndex }

/-- `Player::jump_to_next_track` (player.rs 57–72): no-op on an empty
playlist; otherwise the cursor becomes 0 from `None`, stays at the last
index, or increments — and the sink is updated in every one of those cases. -/
def jumpToNextTrack (env : Env) (p : Player) : Res :=
  if p.playlist.isEmpty then (p, none)
  else
    let newIndex :=
      match p.playlist_index with
      | some index =>
        if index = p.playlist.length - 1 then some index else some (index + 1)
      | none => some 0
    updateSinkToCurrentTrack env { p with playlist_index := newIndex }

/-- `Player::play` (player.rs 74–78): resume the sink and push the status. -/
def play (p : Player) : Player :=
  updateMCPlayback { p with sink := { p.sink with paused := false } }

/-- `Player::pause` (player.rs 80–84): pause the sink and push the status. -/
def pause (p : Player) : Player :=
  updateMCPlayback { p with sink := { p.sink with paused := true } }

/-- `Player::add_to_playlist` (player.rs 98–100): append to the playlist;
nothing else changes. -/
def addToPlaylist (t : Track) (p : Player) : Player :=
  { p with playlist := p.playlist ++ [t] }

/-- `Player::clear_playlist` (player.rs 128–132): empty the playlist, then
update the sink (which, with no current track, only skips the in-flight
source).  The cursor is not touched. -/
def clearPlaylist (env : Env) (p : Player) : Res :=
  updateSinkToCurrentTrack env { p with playlist := [] }

/-- `Player::set_position` (player.rs 138–143): forwards the seek to the sink
(`try_seek`, whose error the source explicitly ignores; the collaborator is
modelled as accepting the position) and pushes the status. -/
def setPosition (posMs : Nat) (p : Player) : Player :=
  updateMCPlayback { p with sink := { p.sink with pos := posMs } }

/-- `Player::set_volume` (player.rs 149–151): passthrough to the sink. -/
def setVolume (v : Nat) (p : Player) : Player :=
  { p with sink := { p.sink with volume := v } }

/-- The player state produced by `Player::try_new` (player.rs 24–35): fresh
sink, empty playlist, no cursor. -/
def initPlayer : Player :=
  { sink := { queue := [], paused := false, pos := 0, volume := 100 },
    playlist := [], playlist_index := none, mcLog := [] }

/-! ## The tick loop (`src/player.rs` 158–186) -/

/-- Direction of a relative seek (`souvlaki::SeekDirection`). -/
inductive SeekDir where
  | forward
  | backward
deriving DecidableEq, Repr

/-- Inbound `souvlaki::MediaControlEvent`s handled by `Player::tick`;
`evOther` stands for the wildcard arm that only logs the event. -/
inductive MCEvent where
  | evPlay
  | evPause
  | evNext
  | evPrevious
  | evSetVolume (v : Nat)
  | evSetPosition (posMs : Nat)
  | evSeek (dir : SeekDir)
  | evSeekBy (dir : SeekDir) (amount : Nat)
  | evOther
deriving DecidableEq, Repr

/-- Outcome of running tick code: normal completion, an `Err` propagated to
the caller (state kept), or a process-aborting Rust panic. -/
inductive RunRes where
  | ok (p : Player)
  | err (p : Player)
  | fatal
deriving DecidableEq, Repr

/-- Lifts a fallible method result into a run outcome. -/
def liftRes : Res → RunRes
  | (p, none) => .ok p
  | (p, some _) => .err p

/-- One arm of the event `match` in `Player::tick` (player.rs 163–183).
`Seek`/`SeekBy` backward compute `self.position() - amount` with the
panicking `Duration` subtraction: underflow is the `fatal` outcome. -/
def handleEvent (env : Env) (p : Player) (e : MCEvent) : RunRes :=
  match e with
  | .evPlay => .ok (play p)
  | .evPause => .ok (pause p)
  | .evNext => liftRes (jumpToNextTrack env p)
  | .evPrevious => liftRes (jumpToPreviousTrack env p)
  | .evSetVolume v => .ok (setVolume v p)
  | .evSetPosition posMs => .ok (setPosition posMs p)
  | .evSeek .forward => .ok (setPosition (p.sink.pos + 10000) p)
  | .evSeek .backward =>
    if p.sink.pos < 10000 then .fatal else .ok (setPosition (p.sink.pos - 10000) p)
  | .evSeekBy .forward amount => .ok (setPosition (p.sink.pos + amount) p)
  | .evSeekBy .backward amount =>
    if p.sink.pos < amount then .fatal else .ok (setPosition (p.sink.pos - amount) p)
  | .evOther => .ok p

/-- The `while let Some(event) = receive_event()` drain loop of `tick`: the
queued events are processed in order; an `Err` (via `?`) or a panic stops
the loop. -/
def runEvents (env : Env) (events : List MCEvent) (p : Player) : RunRes :=
  match events with
  | [] => .ok p
  | e :: rest =>
    match handleEvent env p e with
    | .ok p' => runEvents env rest p'
    | r => r

/-- `Player::tick` (player.rs 158–186): when the sink is empty, first run
`jump_to_next_track` (auto-advance), then drain the pending media-control
events. -/
def tick (env : Env) (events : List MCEvent) (p : Player) : RunRes :=
  if p.sink.queue.isEmpty then
    match jumpToNextTrack env p with
    | (p', none) => runEvents env events p'
    | (p', some _) => .err p'
  else runEvents env events p

/-! ## The `Kanta` variant's sink update (`src/main.rs` 295–310) -/

/-- Sink state of the `main.rs` variant (queue of buffered sources plus the
pause flag; position and volume play no role in the swap claims). -/
structure KSink where
  queue : List Str
  paused : Bool
deriving DecidableEq, Repr

/-- `Kanta::update_sink_to_current_track` (main.rs 295–310): on an empty
queue, the `while !paused && !empty` loop drains the sink (a no-op when
paused); otherwise, when a current track exists, skip the in-flight source
only if not paused, then append the track's buffered source. -/
def kantaUpdateSink (queue : List Str) (queuePos : Option Nat) (s : KSink) : KSink :=
  if queue.isEmpty then
    if s.paused then s else { s with queue := [] }
  else
    match queuePos.bind fun i => queue.get? i with
    | some src =>
      let s1 :=
        if !s.paused && !s.queue.isEmpty then { s with queue := s.queue.tail } else s
      { s1 with queue := s1.queue ++ [src] }
    | none => s

/-! ## Track loading (`src/track.rs` 55–91) -/

/-- The `symphonia::StandardTagKey` values the source looks up. -/
inductive TagKey where
  | trackTitle
  | album
  | artist
  | lyricsKey
deriving DecidableEq, Repr

/-- A probed metadata tag: its optional standard key and its value
(`tag.std_key` and `tag.value.to_string()`). -/
abbrev Tag := Option TagKey × Str

/-- What the collaborators report about one file: `probeResult` is `none`
when `get_probe().format(...)` fails (the source `.unwrap()`s that), `some
none` when no metadata revision exists (`metadata.current()` is `None`), and
`some (some tags)` when a revision with the given tags exists; `decodeOk`
is whether `rodio::Decoder::new` succeeds; `totalDuration` is
`source.total_duration()`. -/
structure FileInfo where
  probeResult : Option (Option (List Tag))
  decodeOk : Bool
  totalDuration : Option Nat

/-- Environment for `Track::load`: what the filesystem/probe/decoder report
per path (`none` = `File::open` fails). -/
structure TrackEnv where
  files : Str → Option FileInfo

/-- The error cases `Track::load` can return. -/
inductive TrackErr where
  | ioError
  | noMetadata
  | decodeError
  | noDuration
deriving DecidableEq, Repr

/-- Outcome of `Track::load`: a Rust panic (`fatalLoad`, from the `.unwrap()`
on the probe result), an `anyhow` error, or a loaded track. -/
inductive LoadOutcome where
  | fatalLoad
  | errOut (e : TrackErr)
  | okOut (t : Track)
deriving DecidableEq, Repr

/-- The `find_tag` closure (track.rs 76–81): first tag whose `std_key`
matches the wanted key, mapped to its value. -/
def findTag (key : TagKey) (tags : List Tag) : Option Str :=
  (tags.find? fun t => t.1 = some key).map fun t => t.2

/-- `Track::load` (track.rs 55–91): open the file, probe it (`.unwrap()` — a
probe failure panics), `bail!("No metadata")` when no metadata revision
exists, re-open and decode for the duration (`bail!` when absent), then
collect the four optional tags. -/
def trackLoad (env : TrackEnv) (path : Str) : LoadOutcome :=
  match env.files path with
  | none => .errOut .ioError
  | some fi =>
    match fi.probeResult with
    | none => .fatalLoad
    | some none => .errOut .noMetadata
    | some (some tags) =>
      if fi.decodeOk then
        match fi.totalDuration with
        | none => .errOut .noDuration
        | some d =>
          .okOut { path := path,
                   title := findTag .trackTitle tags,
                   album := findTag .album tags,
                   artist := findTag .artist tags,
                   lyrics := findTag .lyricsKey tags,
                   duration := d }
      else .errOut .decodeError

/-! ## The m3u8 persistence format (`src/player.rs` 102–126)

`load_m3u8_playlist` parses the file contents with Rust's `str::lines` and
loads each line as a track; `export_m3u8_playlist` joins the playlist's
paths with a single newline.  `str::lines` splits at `\n` terminators,
strips a `\r` that immediately precedes a terminator, and drops the final
empty segment left by a trailing terminator. -/

/-- Splits a character list at every newline, keeping empty segments (the
semantics of Rust `str::split('\n')`). -/
def splitNL : Str → List Str
  | [] => [[]]
  | c :: rest =>
    if c = '\n' then [] :: splitNL rest
    else (c :: (splitNL rest).headD []) :: (splitNL rest).tail

/-- Drops one trailing carriage return, as `str::lines` does on a segment
that was terminated by `\n`. -/
def stripCR (l : Str) : Str :=
  if l.getLast? = some '\r' then l.dropLast else l

/-- Turns the `split('\n')` segments into `str::lines` output: every
terminated segment loses a trailing `\r`, and the final segment — the only
unterminated one — is kept verbatim unless it is the empty rest after a
trailing newline, which is dropped. -/
def fixLines : List Str → List Str
  | [] => []
  | [l] => if l = [] then [] else [l]
  | l :: l' :: rest => stripCR l :: fixLines (l' :: rest)

/-- Rust `str::lines` over the model strings. -/
def rustLines (s : Str) : List Str :=
  fixLines (splitNL s)

/-- The `join("\n")` of `export_m3u8_playlist` (player.rs 111–126). -/
def joinLines : List Str → Str
  | [] => []
  | [p] => p
  | p :: p' :: rest => p ++ '\n' :: joinLines (p' :: rest)

/-- Outcome of loading every line of a playlist file, as the source's
`lines().map(Track::load).collect::<Result<_, _>>()` does: stop at the
first error (or panic). -/
inductive LoadListRes where
  | okL (ts : List Track)
  | errL (e : TrackErr)
  | fatalL
deriving DecidableEq, Repr

/-- Loads the parsed lines in order, short-circuiting like `collect` over a
`Result` iterator (track.rs via player.rs 104–107). -/
def loadTracks (env : TrackEnv) : List Str → LoadListRes
  | [] => .okL []
  | path :: rest =>
    match trackLoad env path with
    | .fatalLoad => .fatalL
    | .errOut e => .errL e
    | .okOut t =>
      match loadTracks env rest with
      | .okL ts => .okL (t :: ts)
      | r => r

/-- Body of `load_m3u8_playlist` on given file contents: the parsed lines
resolved to tracks. -/
def loadM3u8Data (env : TrackEnv) (contents : Str) : LoadListRes :=
  loadTracks env (rustLines contents)

/-- Data written by `export_m3u8_playlist`: the playlist's paths joined with
a newline (every `Str` path is valid UTF-8, so `to_str` never fails in the
model). -/
def exportData (ts : List Track) : Str :=
  joinLines (ts.map Track.path)

/-! ## Invariants and fixtures -/

/-- The spec's playlist cursor invariant: the cursor is `None` or a valid
index strictly below the playlist length. -/
def cursorOk (p : Player) : Bool :=
  match p.playlist_index with
  | none => true
  | some i => i < p.playlist.length

/-- The cursor invariant read off a tick outcome (a panic leaves no state). -/
def runResCursorOk : RunRes → Bool
  | .ok p => cursorOk p
  | .err p => cursorOk p
  | .fatal => true

/-- Environment in which every file decodes to its own path. -/
def envId : Env := { readDecode := fun s => some s }

/-- A ten-second track with no metadata. -/
def trackA : Track :=
  { path := ['a'], title := none, album := none, artist := none, lyrics := none,
    duration := 10000 }

/-- A twenty-second track with no metadata. -/
def trackB : Track :=
  { path := ['b'], title := none, album := none, artist := none, lyrics := none,
    duration := 20000 }

/-- A reachable state: cursor on the last index of a two-item playlist, sink
just drained (the last track finished playing). -/
def lastTrackState : Player :=
  { sink := { queue := [], paused := false, pos := 0, volume := 100 },
    playlist := [trackA, trackB], playlist_index := some 1, mcLog := [] }

/-- A reachable state: one track playing (cursor 0, its source in-flight). -/
def oneTrackState : Player :=
  { sink := { queue := [['a']], paused := false, pos := 3000, volume := 100 },
    playlist := [trackA], playlist_index := some 0, mcLog := [] }

/-- A reachable state: one track playing, 500 ms in, not paused. -/
def playingState : Player :=
  { sink := { queue := [['a']], paused := false, pos := 500, volume := 100 },
    playlist := [trackA], playlist_index := some 0, mcLog := [] }

/-- A track environment in which every file opens, probes to a metadata
revision with no tags, decodes, and reports a 7 ms duration. -/
def allOkTrackEnv : TrackEnv :=
  { files := fun _ =>
      some { probeResult := some (some []), decodeOk := true, totalDuration := some 7 } }

/-- A track environment in which every file opens and decodes but carries no
metadata revision at all. -/
def noMetaEnv : TrackEnv :=
  { files := fun _ =>
      some { probeResult := some none, decodeOk := true, totalDuration := some 1000 } }

/-! ## Helper lemmas -/

/-- the sink update leaves the playlist, the cursor and the pause flag of the
sink unchanged, whichever branch it takes. -/
theorem updateSink_frame (env : Env) (p : Player) :
    (updateSinkToCurrentTrack env p).1.playlist = p.playlist ∧
    (updateSinkToCurrentTrack env p).1.playlist_index = p.playlist_index ∧
    (updateSinkToCurrentTrack env p).1.sink.paused = p.sink.paused := by
  unfold updateSinkToCurrentTrack
  split <;> dsimp only <;> split <;> (try split) <;>
    simp [updateMCPlayback, Sink.skipOne, Sink.enqueueSrc]

/-- the cursor invariant only reads the playlist and the cursor. -/
theorem cursorOk_congr {p q : Player} (h1 : p.playlist = q.playlist)
    (h2 : p.playlist_index = q.playlist_index) : cursorOk p = cursorOk q := by
  unfold cursorOk
  rw [h1, h2]

/-- the sink update preserves the cursor invariant verbatim. -/
theorem cursorOk_updateSink (env : Env) (p : Player) :
    cursorOk (updateSinkToCurrentTrack env p).1 = cursorOk p :=
  cursorOk_congr (updateSink_frame env p).1 (updateSink_frame env p).2.1

/-- the cursor invariant of a player whose cursor was just set. -/
theorem cursorOk_set_index (p : Player) (i : Nat) :
    cursorOk { p with playlist_index := some i } =
      decide (i < p.playlist.length) := rfl

/-- seeking does not move the cursor. -/
theorem cursorOk_setPosition (d : Nat) (p : Player) :
    cursorOk (setPosition d p) = cursorOk p :=
  cursorOk_congr rfl rfl

/-- next preserves the cursor invariant. -/
theorem cursorOk_next (env : Env) (p : Player) (h : cursorOk p = true) :
    cursorOk (jumpToNextTrack env p).1 = true := by
  unfold jumpToNextTrack
  cases hemp : p.playlist.isEmpty with
  | true => simpa using h
  | false =>
    have hlen : 0 < p.playlist.length := by
      cases hpl : p.playlist with
      | nil => rw [hpl] at hemp; simp at hemp
      | cons a as => simp
    simp only [Bool.false_eq_true, if_false, cursorOk_updateSink]
    cases hpi : p.playlist_index with
    | none => simpa [cursorOk] using hlen
    | some i =>
      have hi : i < p.playlist.length := by simpa [cursorOk, hpi] using h
      by_cases hlast : i = p.playlist.length - 1
      · simpa [cursorOk, hlast] using hi
      · simp only [hlast, if_false, cursorOk]
        simp only [decide_eq_true_eq]
        omega

/-- previous preserves the cursor invariant. -/
theorem cursorOk_prev (env : Env) (p : Player) (h : cursorOk p = true) :
    cursorOk (jumpToPreviousTrack env p).1 = true := by
  unfold jumpToPreviousTrack
  cases hemp : p.playlist.isEmpty with
  | true => simpa using h
  | false =>
    simp only [Bool.false_eq_true, if_false]
    cases hpi : p.playlist_index with
    | none => simpa using h
    | some i =>
      have hi : i < p.playlist.length := by simpa [cursorOk, hpi] using h
      dsimp only
      rw [cursorOk_updateSink, cursorOk_set_index]
      simp only [decide_eq_true_eq]
      split <;> omega

/-- adding a track preserves the cursor invariant (the playlist only grows). -/
theorem cursorOk_add (t : Track) (p : Player) (h : cursorOk p = true) :
    cursorOk (addToPlaylist t p) = true := by
  unfold addToPlaylist cursorOk
  unfold cursorOk at h
  cases hpi : p.playlist_index with
  | none => simp
  | some i =>
    rw [hpi] at h
    simp only [List.length_append, List.length_cons, List.length_nil, decide_eq_true_eq] at *
    omega

/-- lifting a method result commutes with reading the invariant. -/
theorem runResCursorOk_liftRes (r : Res) :
    runResCursorOk (liftRes r) = cursorOk r.1 := by
  rcases r with ⟨p, e⟩
  cases e <;> rfl

/-- every event handler preserves the cursor invariant. -/
theorem cursorOk_handleEvent (env : Env) (p : Player) (e : MCEvent)
    (h : cursorOk p = true) : runResCursorOk (handleEvent env p e) = true := by
  cases e with
  | evPlay => exact h
  | evPause => exact h
  | evNext =>
    simpa [handleEvent, runResCursorOk_liftRes] using cursorOk_next env p h
  | evPrevious =>
    simpa [handleEvent, runResCursorOk_liftRes] using cursorOk_prev env p h
  | evSetVolume v => exact h
  | evSetPosition d =>
    show cursorOk (setPosition d p) = true
    rw [cursorOk_setPosition]
    exact h
  | evSeek dir =>
    cases dir with
    | forward =>
      show cursorOk (setPosition (p.sink.pos + 10000) p) = true
      rw [cursorOk_setPosition]
      exact h
    | backward =>
      show runResCursorOk
        (if p.sink.pos < 10000 then .fatal
         else .ok (setPosition (p.sink.pos - 10000) p)) = true
      split
      · rfl
      · show cursorOk (setPosition (p.sink.pos - 10000) p) = true
        rw [cursorOk_setPosition]
        exact h
  | evSeekBy dir amount =>
    cases dir with
    | forward =>
      show cursorOk (setPosition (p.sink.pos + amount) p) = true
      rw [cursorOk_setPosition]
      exact h
    | backward =>
      show runResCursorOk
        (if p.sink.pos < amount then .fatal
         else .ok (setPosition (p.sink.pos - amount) p)) = true
      split
      · rfl
      · show cursorOk (setPosition (p.sink.pos - amount) p) = true
        rw [cursorOk_setPosition]
        exact h
  | evOther => exact h

/-- the event drain loop preserves the cursor invariant. -/
theorem cursorOk_runEvents (env : Env) (events : List MCEvent) (p : Player)
    (h : cursorOk p = true) : runResCursorOk (runEvents env events p) = true := by
  induction events generalizing p with
  | nil => simpa [runEvents, runResCursorOk] using h
  | cons e rest ih =>
    unfold runEvents
    have he := cursorOk_handleEvent env p e h
    cases hh : handleEvent env p e with
    | ok p' =>
      rw [hh] at he
      exact ih p' (by simpa [runResCursorOk] using he)
    | err p' => simpa [hh] using he
    | fatal => rfl

/-- tick preserves the cursor invariant. -/
theorem cursorOk_tick (env : Env) (events : List MCEvent) (p : Player)
    (h : cursorOk p = true) : runResCursorOk (tick env events p) = true := by
  unfold tick
  cases hq : p.sink.queue.isEmpty with
  | false => simpa using cursorOk_runEvents env events p h
  | true =>
    simp only [if_true]
    have hn := cursorOk_next env p h
    cases hjn : jumpToNextTrack env p with
    | mk p' oe =>
      rw [hjn] at hn
      cases oe with
      | none => exact cursorOk_runEvents env events p' hn
      | some e => simpa [runResCursorOk] using hn

/-- splitting always yields at least one segment. -/
theorem splitNL_ne_nil (s : Str) : splitNL s ≠ [] := by
  cases s with
  | nil => simp [splitNL]
  | cons c rest =>
    unfold splitNL
    by_cases hc : c = '\n' <;> simp [hc]

/-- a newline-free string is one whole segment. -/
theorem splitNL_no_nl (p : Str) (h : '\n' ∉ p) : splitNL p = [p] := by
  induction p with
  | nil => rfl
  | cons c rest ih =>
    have hc : ¬ c = '\n' := fun hcc => h (by simp [hcc])
    have hr : '\n' ∉ rest := fun hm => h (List.mem_cons_of_mem _ hm)
    unfold splitNL
    simp only [hc, if_false, ih hr, List.headD, List.tail]

/-- splitting after a newline-free chunk peels it off as one segment. -/
theorem splitNL_append (p s : Str) (h : '\n' ∉ p) :
    splitNL (p ++ '\n' :: s) = p :: splitNL s := by
  induction p with
  | nil => simp [splitNL]
  | cons c rest ih =>
    have hc : ¬ c = '\n' := fun hcc => h (by simp [hcc])
    have hr : '\n' ∉ rest := fun hm => h (List.mem_cons_of_mem _ hm)
    rw [List.cons_append, splitNL, if_neg hc, ih hr]
    simp

/-- the line fixer walks one terminated segment at a time. -/
theorem fixLines_cons (l : Str) (ls : List Str) (h : ls ≠ []) :
    fixLines (l :: ls) = stripCR l :: fixLines ls := by
  cases ls with
  | nil => exact absurd rfl h
  | cons a as => rfl

/-- a string without trailing carriage return is untouched by the strip. -/
theorem stripCR_eq_self (l : Str) (h : l.getLast? ≠ some '\r') :
    stripCR l = l := by
  unfold stripCR
  simp [h]

/-- parsing the joined path list gives back the paths, provided no path has a
newline, no path ends in a carriage return, and the final path is nonempty. -/
theorem rustLines_joinLines (P : List Str)
    (hn : ∀ p ∈ P, '\n' ∉ p)
    (hr : ∀ p ∈ P, p.getLast? ≠ some '\r')
    (hl : P.getLast? ≠ some []) :
    rustLines (joinLines P) = P := by
  induction P with
  | nil => rfl
  | cons p rest ih =>
    cases rest with
    | nil =>
      have hp : '\n' ∉ p := hn p (by simp)
      have hpe : p ≠ [] := by
        intro hcc
        exact hl (by simp [hcc])
      simp [joinLines, rustLines, splitNL_no_nl p hp, fixLines, hpe]
    | cons q rest' =>
      have hp : '\n' ∉ p := hn p (by simp)
      have hrp : p.getLast? ≠ some '\r' := hr p (by simp)
      have ihh := ih (fun x hx => hn x (List.mem_cons_of_mem _ hx))
        (fun x hx => hr x (List.mem_cons_of_mem _ hx))
        (by
          intro hcc
          exact hl (by simpa [List.getLast?_cons_cons] using hcc))
      unfold rustLines joinLines
      rw [splitNL_append p _ hp, fixLines_cons _ _ (splitNL_ne_nil _),
        stripCR_eq_self p hrp]
      exact congrArg (p :: ·) ihh

/-- a successfully loaded track keeps the path it was loaded from. -/
theorem trackLoad_path (env : TrackEnv) (path : Str) (t : Track)
    (h : trackLoad env path = .okOut t) : t.path = path := by
  unfold trackLoad at h
  cases hf : env.files path with
  | none => simp [hf] at h
  | some fi =>
    cases hp : fi.probeResult with
    | none => simp [hf, hp] at h
    | some rev =>
      cases rev with
      | none => simp [hf, hp] at h
      | some tags =>
        by_cases hd : fi.decodeOk = true
        · cases hdur : fi.totalDuration with
          | none => simp [hf, hp, hd, hdur] at h
          | some d =>
            simp only [hf, hp, hd, hdur, if_true, LoadOutcome.okOut.injEq] at h
            rw [← h]
        · simp [hf, hp, hd] at h

/-- loading a list of paths successfully produces tracks with those paths. -/
theorem loadTracks_paths (env : TrackEnv) (paths : List Str) (ts : List Track)
    (h : loadTracks env paths = .okL ts) : ts.map Track.path = paths := by
  induction paths generalizing ts with
  | nil =>
    unfold loadTracks at h
    simp only [LoadListRes.okL.injEq] at h
    rw [← h]
    rfl
  | cons path rest ih =>
    unfold loadTracks at h
    cases hl : trackLoad env path with
    | fatalLoad => simp [hl] at h
    | errOut e => simp [hl] at h
    | okOut t =>
      cases hrest : loadTracks env rest with
      | okL ts' =>
        simp only [hl, hrest, LoadListRes.okL.injEq] at h
        rw [← h]
        simp [ih ts' hrest, trackLoad_path env path t hl]
      | errL e => simp [hl, hrest] at h
      | fatalL => simp [hl, hrest] at h

/-! ## Claim theorems -/

/-- Claim C1, counterexample: from the reachable initial state (empty
playlist, cursor `None`, `cursorOk` holds) the public operation
`jump_to_track_at 0` produces a state whose cursor is `Some 0` on an empty
playlist — the cursor invariant is not preserved by every public operation. -/
theorem c1_counterexample :
    cursorOk initPlayer = true ∧
    cursorOk (jumpToTrackAt envId 0 initPlayer).1 = false := by
  constructor <;> rfl

/-- Claim C1 (amended): the cursor invariant is preserved by `add_to_playlist`,
`play`, `pause`, `set_position`, `set_volume`, `jump_to_next_track`,
`jump_to_previous_track` and `tick` (with any drained event list); it is NOT
preserved by `jump_to_track_at` (which sets the cursor unconditionally), by
`clear_playlist` (which empties the playlist without resetting the cursor),
or by a playlist load that shrinks the playlist below the cursor. -/
theorem c1_cursor_invariant_preserved (env : Env) (events : List MCEvent)
    (p : Player) (t : Track) (d v : Nat) (h : cursorOk p = true) :
    cursorOk (addToPlaylist t p) = true ∧
    cursorOk (play p) = true ∧
    cursorOk (pause p) = true ∧
    cursorOk (setPosition d p) = true ∧
    cursorOk (setVolume v p) = true ∧
    cursorOk (jumpToNextTrack env p).1 = true ∧
    cursorOk (jumpToPreviousTrack env p).1 = true ∧
    runResCursorOk (tick env events p) = true := by
  refine ⟨cursorOk_add t p h, h, h, ?_, h, cursorOk_next env p h,
    cursorOk_prev env p h, cursorOk_tick env events p h⟩
  rw [cursorOk_setPosition]
  exact h

/-- Claim C1, witness for the amended theorem at a concrete input. -/
theorem c1_witness : cursorOk (addToPlaylist trackA initPlayer) = true :=
  (c1_cursor_invariant_preserved envId [] initPlayer trackA 0 50 rfl).1

/-- Claim C2, counterexample: on the empty playlist every index is outside
`[0, len)`, yet `jump_to_track_at 0` from the initial state changes the
cursor from `None` to `Some 0` — the call is not a no-op. -/
theorem c2_counterexample :
    (jumpToTrackAt envId 0 initPlayer).1.playlist_index ≠
      initPlayer.playlist_index := by
  decide

/-- Claim C2 (amended): `jump_to_track_at index` sets the cursor to `index`
unconditionally.  For an out-of-range index no track is enqueued — the whole
effect is the unconditional cursor write plus the unconditional skip of the
in-flight source — and the call still returns `Ok`. -/
theorem c2_jump_out_of_range (env : Env) (p : Player) (i : Nat)
    (h : p.playlist.length ≤ i) :
    jumpToTrackAt env i p =
      ({ p with playlist_index := some i,
                sink := if p.sink.queue.isEmpty then p.sink else p.sink.skipOne },
       none) := by
  unfold jumpToTrackAt updateSinkToCurrentTrack
  cases hq : p.sink.queue.isEmpty <;>
    simp_all [currentTrack, List.getElem?_eq_none h]

/-- Claim C2, witness: jumping to index 5 of a one-item playlist. -/
theorem c2_witness :
    jumpToTrackAt envId 5 oneTrackState =
      ({ oneTrackState with playlist_index := some 5,
                            sink := oneTrackState.sink.skipOne }, none) :=
  c2_jump_out_of_range envId oneTrackState 5 (by decide)

/-- Claim C7 (confirmed): every track swap — `jump_to_track_at`,
`jump_to_next_track`, `jump_to_previous_track`, `clear_playlist`'s
swap-to-nothing, and the `main.rs` variant's `update_sink_to_current_track`
— leaves the output's pause flag exactly as it was. -/
theorem c7_swap_preserves_pause_flag (env : Env) (p : Player) (i : Nat)
    (q : List Str) (qp : Option Nat) (s : KSink) :
    (jumpToTrackAt env i p).1.sink.paused = p.sink.paused ∧
    (jumpToNextTrack env p).1.sink.paused = p.sink.paused ∧
    (jumpToPreviousTrack env p).1.sink.paused = p.sink.paused ∧
    (clearPlaylist env p).1.sink.paused = p.sink.paused ∧
    (kantaUpdateSink q qp s).paused = s.paused := by
  refine ⟨(updateSink_frame env _).2.2, ?_, ?_, (updateSink_frame env _).2.2, ?_⟩
  · unfold jumpToNextTrack
    cases hemp : p.playlist.isEmpty with
    | true => rfl
    | false =>
      cases hpi : p.playlist_index <;>
        exact (updateSink_frame env _).2.2
  · unfold jumpToPreviousTrack
    cases hemp : p.playlist.isEmpty with
    | true => rfl
    | false =>
      cases hpi : p.playlist_index with
      | none => rfl
      | some i => exact (updateSink_frame env _).2.2
  · unfold kantaUpdateSink
    split
    · split <;> rfl
    · split
      · split <;> rfl
      · rfl

/-- Claim C3 (code bug): with the cursor on the last index of a two-item
playlist and the sink reporting empty, `tick` keeps the cursor at the last
index but `jump_to_next_track` is NOT a no-op: `update_sink_to_current_track`
runs unconditionally, re-decodes the last track, enqueues its source again
(the queue ends up non-empty) and the pushed status is `Playing`, not a stop
— the last track loops instead of playback ending in `Idle`. -/
theorem c3_tick_at_last_track_requeues :
    tick envId [] lastTrackState =
      .ok { sink := { queue := [['b']], paused := false, pos := 0, volume := 100 },
            playlist := [trackA, trackB], playlist_index := some 1,
            mcLog := [.metadata trackB, .playback (.playing 0)] } := by
  rfl

/-- Claim C4, counterexample: clearing a playing one-track player empties the
playlist and the sink but leaves the cursor at `Some 0` — `clear()` does not
result in `cursor == None`. -/
theorem c4_counterexample :
    (clearPlaylist envId oneTrackState).1.playlist_index = some 0 ∧
    (clearPlaylist envId oneTrackState).1.playlist = [] := by
  constructor <;> rfl

/-- Claim C4 (amended): on any state whose sink holds at most one in-flight
source (true of every reachable state), `clear_playlist` empties the
playlist, empties the sink, leaves no current track, and returns `Ok` — but
the cursor keeps its previous value instead of being reset to `None`. -/
theorem c4_clear_behavior (env : Env) (p : Player)
    (h : p.sink.queue.length ≤ 1) :
    (clearPlaylist env p).1.playlist = [] ∧
    (clearPlaylist env p).1.sink.queue = [] ∧
    currentTrack (clearPlaylist env p).1 = none ∧
    (clearPlaylist env p).1.playlist_index = p.playlist_index ∧
    (clearPlaylist env p).2 = none := by
  unfold clearPlaylist updateSinkToCurrentTrack
  have hct : ∀ q : Sink, currentTrack { p with playlist := ([] : List Track), sink := q } = none := by
    intro q
    unfold currentTrack
    cases p.playlist_index <;> simp
  cases hq : p.sink.queue with
  | nil => simp_all [currentTrack, Sink.skipOne]
  | cons x xs =>
    have hxs : xs = [] := by
      rw [hq] at h
      simpa using h
    subst hxs
    simp_all [currentTrack, Sink.skipOne]

/-- Claim C4, witness for the amended theorem at a concrete input. -/
theorem c4_witness : (clearPlaylist envId playingState).1.sink.queue = [] :=
  (c4_clear_behavior envId playingState (by decide)).2.1

/-- Claim C5, counterexample: adding a track to the freshly created (empty)
player does not set the cursor to 0 and does not prime the output — both
happen only on the next tick. -/
theorem c5_counterexample :
    (addToPlaylist trackA initPlayer).playlist_index = none ∧
    (addToPlaylist trackA initPlayer).sink.queue = [] := by
  constructor <;> rfl

/-- Claim C5 (amended): `add_to_playlist` never moves the cursor (for empty
and non-empty playlists alike); the auto-start happens on the next `tick`:
starting from an empty player with an empty sink, after `add_to_playlist t`
the first tick sets the cursor to 0, enqueues `t`'s decoded source, and
pushes `t`'s metadata and the derived status. -/
theorem c5_add_then_tick (env : Env) (p : Player) (t : Track) (src : Str)
    (h1 : p.playlist = []) (h2 : p.playlist_index = none)
    (h3 : p.sink.queue = []) (h4 : env.readDecode t.path = some src) :
    (∀ q : Player, ∀ u : Track, (addToPlaylist u q).playlist_index = q.playlist_index) ∧
    tick env [] (addToPlaylist t p) =
      .ok { sink := { queue := [src], paused := p.sink.paused, pos := p.sink.pos,
                      volume := p.sink.volume },
            playlist := [t], playlist_index := some 0,
            mcLog := p.mcLog ++ [.metadata t,
              .playback (mediaPlaybackFor false p.sink.paused p.sink.pos)] } := by
  refine ⟨fun q u => rfl, ?_⟩
  obtain ⟨⟨sq, sp, spos, svol⟩, pl, pi, log⟩ := p
  simp only at h1 h2 h3
  subst h1; subst h2; subst h3
  simp [tick, addToPlaylist, jumpToNextTrack, updateSinkToCurrentTrack,
    currentTrack, updateMCPlayback, Sink.enqueueSrc, runEvents, h4]

/-- Claim C5, witness for the amended theorem at a concrete input. -/
theorem c5_witness :
    tick envId [] (addToPlaylist trackA initPlayer) =
      .ok { sink := { queue := [['a']], paused := false, pos := 0, volume := 100 },
            playlist := [trackA], playlist_index := some 0,
            mcLog := [.metadata trackA, .playback (.playing 0)] } :=
  (c5_add_then_tick envId initPlayer trackA ['a'] rfl rfl rfl rfl).2

/-- Claim C6 (code bug): pausing while a current track exists and the output
holds an unfinished source pushes `MediaPlayback::Stopped` to the bridge, not
`Paused { elapsed }` — `update_playback`'s second branch tests
`is_idle && is_paused` instead of `!is_idle && is_paused`, so the
`Playing → Paused` transition is never reported; a subsequent `play()` does
report `Playing` with the elapsed position again. -/
theorem c6_pause_reports_stopped :
    (pause playingState).sink.paused = true ∧
    (pause playingState).mcLog = [.playback .stopped] ∧
    (play (pause playingState)).mcLog =
      [.playback .stopped, .playback (.playing 500)] := by
  refine ⟨rfl, rfl, rfl⟩

/-- Claim C8, counterexample: the newline-free path list `["a", ""]` does not
round-trip.  Importing the file that lists it (`"a\n"`) yields a one-track
playlist (Rust `str::lines` drops the final empty line), and exporting that
playlist writes `"a"`, not `"a\n"` — the trailing empty path is lost. -/
theorem c8_counterexample :
    loadM3u8Data allOkTrackEnv (joinLines [['a'], []]) =
      .okL [{ path := ['a'], title := none, album := none, artist := none,
              lyrics := none, duration := 7 }] ∧
    exportData [{ path := ['a'], title := none, album := none, artist := none,
                  lyrics := none, duration := 7 }] ≠ joinLines [['a'], []] := by
  constructor
  · rfl
  · decide

/-- Claim C8 (amended): import-then-export is the identity on path lists in
which no path contains `'\n'`, no path ends with `'\r'`, and the final path
is nonempty: whenever every line loads successfully, the resulting playlist
carries exactly the paths of `P` and exports to exactly the imported file
contents.  (It fails for a trailing empty path, which the line parser
drops.) -/
theorem c8_roundtrip (env : TrackEnv) (P : List Str) (ts : List Track)
    (hn : ∀ p ∈ P, '\n' ∉ p)
    (hr : ∀ p ∈ P, p.getLast? ≠ some '\r')
    (hl : P.getLast? ≠ some [])
    (hload : loadM3u8Data env (joinLines P) = .okL ts) :
    ts.map Track.path = P ∧ exportData ts = joinLines P := by
  unfold loadM3u8Data at hload
  rw [rustLines_joinLines P hn hr hl] at hload
  have hp := loadTracks_paths env P ts hload
  refine ⟨hp, ?_⟩
  unfold exportData
  rw [hp]

/-- Claim C8, witness for the amended theorem at a concrete input. -/
theorem c8_witness :
    exportData [{ path := ['a'], title := none, album := none, artist := none,
                  lyrics := none, duration := 7 },
                { path := ['b'], title := none, album := none, artist := none,
                  lyrics := none, duration := 7 }] =
      joinLines [['a'], ['b']] :=
  (c8_roundtrip allOkTrackEnv [['a'], ['b']] _
    (by decide) (by decide) (by decide) rfl).2

/-- Claim C9, counterexample: a file that carries no metadata at all (the
probe yields no metadata revision) makes `Track::load` return the
`"No metadata"` error instead of succeeding with `None` fields — missing
metadata IS surfaced as a failure to the caller in that case. -/
theorem c9_counterexample :
    trackLoad noMetaEnv ['f'] = .errOut .noMetadata := by
  rfl

/-- Claim C9 (amended): when the probe yields a metadata revision — even one
with no tags at all — `Track::load` succeeds and represents every absent
field as `None`; but when the container has no metadata revision, the load
fails with the `"No metadata"` error (and a probe failure panics through the
`.unwrap()`). -/
theorem c9_no_tags_loads_with_none_fields (env : TrackEnv) (path : Str)
    (fi : FileInfo) (d : Nat)
    (h1 : env.files path = some fi)
    (h2 : fi.probeResult = some (some []))
    (h3 : fi.decodeOk = true)
    (h4 : fi.totalDuration = some d) :
    trackLoad env path =
      .okOut { path := path, title := none, album := none, artist := none,
               lyrics := none, duration := d } := by
  unfold trackLoad
  simp [h1, h2, h3, h4, findTag]

/-- Claim C9, witness for the amended theorem at a concrete input. -/
theorem c9_witness :
    trackLoad allOkTrackEnv ['f'] =
      .okOut { path := ['f'], title := none, album := none, artist := none,
               lyrics := none, duration := 7 } :=
  c9_no_tags_loads_with_none_fields allOkTrackEnv ['f']
    { probeResult := some (some []), decodeOk := true, totalDuration := some 7 }
    7 rfl rfl rfl rfl

/-- Claim C10 (code bug): a tick that drains a backward relative-seek event
while the playback position is under ten seconds evaluates
`self.position() - Duration::from_secs(10)`, whose `Duration` subtraction
panics on underflow and aborts the process — the call neither completes nor
returns a recoverable error. -/
theorem c10_backward_seek_panics :
    tick envId [.evSeek .backward] playingState = .fatal := by
  rfl

end Kanta
